import Mathlib

/-!
Verification of the insta-story repository (Instagram story scraper).

Shallow embedding of:
- the media classifier `isAudioOnly` (src/services/instagramScraper.js, videoProcessor part),
- the dedup ledger `StoryTracker` (filterProcessedStories / markAsProcessed),
- the media reconciliation pipeline `processStory` / `combineVideoAudio`,
- the network interceptor and story-walker loop of `extractStoryDataFromPage`,
- the range media server handler `GET /stream/:id.mp4`.

JavaScript conventions used throughout the embedding:
- a nullable string is `Option String`; `none` stands for `null`/`undefined`
  (the code never distinguishes the two in the modelled paths);
- JS truthiness of such a value: `none` and `some ""` are falsy;
- external effects (browser requests, downloads, the ffmpeg subprocess, the
  uuid generator, Node's URL/base64/JSON decoding) are supplied as explicit
  oracle inputs, so every function of the embedding is pure and executable.
-/

set_option maxHeartbeats 1000000
set_option maxRecDepth 8192

/-- JS truthiness for a nullable string: `null`/`undefined` and `""` are falsy. -/
def truthyS : Option String → Bool
  | none => false
  | some s => s ≠ ""

/-- Read a JS nullable string where the surrounding code has established truthiness. -/
def jsGet (o : Option String) : String := o.getD ""

/-- `s.includes(pat)` of JavaScript: substring containment, `true` for the empty pattern. -/
def containsSubstr (s pat : String) : Bool :=
  s.data.tails.any (fun t => pat.data.isPrefixOf t)

/-- `s.startsWith(pre)` of JavaScript, on the character lists (kernel-reducible,
unlike the byte-position-based library primitive). -/
def strStartsWith (s pre : String) : Bool :=
  pre.data.isPrefixOf s.data

/-- Drop an exact literal from the front of a character list, returning the rest. -/
def dropLit : List Char → List Char → Option (List Char)
  | [], s => some s
  | _ :: _, [] => none
  | p :: ps, c :: cs => if p = c then dropLit ps cs else none

/-- Consume one-or-more decimal digits (the regex `\d+`), returning the rest. -/
def dropDigits1 : List Char → Option (List Char)
  | [] => none
  | c :: cs => if c.isDigit then some (cs.dropWhile Char.isDigit) else none

/-- Match `bytestart=\d+&byteend=\d+` at the front of the list (shared core of the
three byte-range-stripping regexes of the network interceptor). -/
def matchByteRangeCore (s : List Char) : Option (List Char) :=
  match dropLit "bytestart=".data s with
  | none => none
  | some r1 =>
    match dropDigits1 r1 with
    | none => none
    | some r2 =>
      match dropLit "&byteend=".data r2 with
      | none => none
      | some r3 => dropDigits1 r3

/-- Match `&bytestart=\d+&byteend=\d+` at the front of the list. -/
def matchAmpByteRange : List Char → Option (List Char)
  | '&' :: r => matchByteRangeCore r
  | _ => none

/-- Match `\?bytestart=\d+&byteend=\d+&` at the front of the list. -/
def matchQByteRangeAmp : List Char → Option (List Char)
  | '?' :: r =>
    match matchByteRangeCore r with
    | some ('&' :: r2) => some r2
    | _ => none
  | _ => none

/-- Match `\?bytestart=\d+&byteend=\d+` at the front of the list. -/
def matchQByteRange : List Char → Option (List Char)
  | '?' :: r => matchByteRangeCore r
  | _ => none

/-- One global-regex replacement pass, as JS `String.replace(/re/g, repl)`: scan left
to right, replace non-overlapping matches, continue after each match.  A matcher
always consumes at least one character, so the input length is sufficient fuel. -/
def replAllAux (m : List Char → Option (List Char)) (repl : List Char) :
    Nat → List Char → List Char
  | 0, s => s
  | _ + 1, [] => []
  | fuel + 1, c :: rest =>
    match m (c :: rest) with
    | some rest2 => repl ++ replAllAux m repl fuel rest2
    | none => c :: replAllAux m repl fuel rest

/-- Replace every match of `m` in `s` by `repl`. -/
def replAll (m : List Char → Option (List Char)) (repl : List Char)
    (s : List Char) : List Char :=
  replAllAux m repl s.length s

/-- The three byte-range stripping replacements of the network interceptor
(`cleanUrl` computation, src/services/instagramScraper.js lines 435-437):
`url.replace(/&bytestart=\d+&byteend=\d+/g, '')`, then
`.replace(/\?bytestart=\d+&byteend=\d+&/g, '?')`, then
`.replace(/\?bytestart=\d+&byteend=\d+/g, '')`. -/
def stripByteRange (url : String) : String :=
  let s1 := replAll matchAmpByteRange [] url.data
  let s2 := replAll matchQByteRangeAmp ['?'] s1
  let s3 := replAll matchQByteRange [] s2
  String.mk s3

/-- Outcome of the `efg` query-parameter decode chain of `isAudioOnly`
(src/services/instagramScraper.js, videoProcessor part, lines 761-765).
The chain `new URL(url)` / `searchParams.get('efg')` / base64 / `JSON.parse`
runs on Node built-ins, which the embedding treats as the host environment:
`noParam` is `searchParams.get('efg') === null` (no exception, returns false),
`err` is any exception in the chain (caught, returns false), and
`ok tag` is a successful decode with `encode_tag` field `tag`
(`none` when the decoded object has no such field, read as `''`). -/
inductive EfgResult where
  | noParam
  | err
  | ok (encode_tag : Option String)
deriving DecidableEq

/-- `isAudioOnly(url)` (src/services/instagramScraper.js, videoProcessor part,
lines 750-770): audio-tier path marker `/m78/` first, then video-tier marker
`/m367/`, then the decoded `encode_tag` decision table; every failure of the
decode chain yields `false` (video). -/
def isAudioOnly (url : String) (efg : EfgResult) : Bool :=
  if containsSubstr url "/m78/" then true
  else if containsSubstr url "/m367/" then false
  else
    match efg with
    | EfgResult.noParam => false
    | EfgResult.err => false
    | EfgResult.ok tagOpt =>
      let tag := (tagOpt.getD "").toLower
      containsSubstr tag "audio" && !containsSubstr tag "vp9" && !containsSubstr tag "avc"

/-- Media kind, for the specification-side classifier. -/
inductive MediaKind where
  | video
  | audio
deriving DecidableEq

/-- Modelled from the spec (section 4.1 Media Classifier), for the refinement
claim about the classifier's decision procedure: "(a) a fixed path-segment
marker known to denote the audio-only delivery tier ⇒ audio; (b) a fixed
path-segment marker known to denote the video delivery tier ⇒ video;
(c) fallback: decode a base64-encoded query parameter carrying an encoding
descriptor; if its tag contains an audio hint and excludes known video-codec
hints ⇒ audio, else ⇒ video.  Any decode failure defaults to video." -/
def classifySpec (url : String) (efg : EfgResult) : MediaKind :=
  if containsSubstr url "/m78/" then MediaKind.audio
  else if containsSubstr url "/m367/" then MediaKind.video
  else
    match efg with
    | EfgResult.ok tagOpt =>
      let tag := (tagOpt.getD "").toLower
      if containsSubstr tag "audio" && !containsSubstr tag "vp9" && !containsSubstr tag "avc"
      then MediaKind.audio else MediaKind.video
    | _ => MediaKind.video

/-! ## Dedup ledger (`StoryTracker`, src/unnamed/part_003) -/

/-- A story object as the tracker sees it: only the two fields its identifier
resolution reads.  Both are JS-nullable. -/
structure JsStory where
  ig_pk : Option String
  media_url : Option String
deriving DecidableEq

/-- `story.ig_pk || story.media_url` of `filterProcessedStories` /
`markAsProcessed`: the platform id when truthy, else the media URL. -/
def storyId (s : JsStory) : Option String :=
  if truthyS s.ig_pk then s.ig_pk else s.media_url

/-- `processedIds.has(storyId)` where `processedIds` is a `Set` of strings loaded
from the ledger file: a nullish identifier is never a member. -/
def processedMem (pids : List String) : Option String → Bool
  | some x => decide (x ∈ pids)
  | none => false

/-- The loop of `StoryTracker.filterProcessedStories` (src/unnamed/part_003,
lines 96-121), with the in-batch `seenPks` set made explicit: skip an
identifier already seen in the batch, record it, skip it when already in the
persisted set, else keep the story. -/
def filterGo (pids : List String) (seen : List (Option String)) :
    List JsStory → List JsStory
  | [] => []
  | s :: rest =>
    let sid := storyId s
    if sid ∈ seen then filterGo pids seen rest
    else if processedMem pids sid then filterGo pids (sid :: seen) rest
    else s :: filterGo pids (sid :: seen) rest

/-- `StoryTracker.filterProcessedStories(stories)` over a persisted id set. -/
def filterProcessedStories (pids : List String) (stories : List JsStory) : List JsStory :=
  filterGo pids [] stories

/-- `StoryTracker.addStoryIds(storyIds)` (src/unnamed/part_003, lines 74-91):
set-union of the persisted ids with the given ids, insertion order kept. -/
def addStoryIds (pids : List String) (ids : List String) : List String :=
  ids.foldl (fun acc i => if i ∈ acc then acc else acc ++ [i]) pids

/-- `StoryTracker.markAsProcessed(stories)` (src/unnamed/part_003, lines
126-129): `stories.map(s => s.ig_pk || s.media_url).filter(id => id)` then
`addStoryIds` — falsy identifiers are dropped before being persisted. -/
def markAsProcessed (pids : List String) (stories : List JsStory) : List String :=
  addStoryIds pids (stories.filterMap (fun s =>
    match storyId s with
    | some x => if x = "" then none else some x
    | none => none))

/-! ## Media reconciliation pipeline (`processStory`, videoProcessor part) -/

/-- Oracle for the external effects of one `processStory` run: the two
authenticated downloads and the exit code of the spawned ffmpeg process. -/
structure ProcEnv where
  videoDownloadOk : Bool
  audioDownloadOk : Bool
  mergeExitCode : Nat
deriving DecidableEq

/-- What ends up in the durable artifact store (`video_stories/<id>.mp4`). -/
inductive StoredArtifact where
  | mergedAV
  | videoOnly
deriving DecidableEq

/-- The value returned by `processStory` plus the artifact-store effect:
`{success, videoId, url}` on success, `{success: false, error}` on failure
(in which case the catch block has unlinked the output file, so no artifact). -/
structure ProcOutput where
  success : Bool
  videoId : Option String
  url : Option String
  error : Option String
  artifact : Option StoredArtifact
deriving DecidableEq

/-- `processStory(videoUrl, audioUrl, page)` (src/services/instagramScraper.js,
videoProcessor part, lines 776-848).  `videoId` is the freshly generated uuid
(an oracle input).  Video download failure throws and is caught (`DownloadFailed`);
with an audio URL, a successful audio download runs `combineVideoAudio`, whose
promise REJECTS on a non-zero ffmpeg exit code (lines 882-895) — the rejection
propagates to the catch block, which unlinks the temporaries and the output and
returns `{success: false, error}`; a failed audio download falls back to copying
the video-only download as the artifact; no audio URL copies the video directly. -/
def processStory (videoId : String) (audioUrl : Option String) (env : ProcEnv) : ProcOutput :=
  if env.videoDownloadOk then
    if truthyS audioUrl then
      if env.audioDownloadOk then
        if env.mergeExitCode = 0 then
          { success := true, videoId := some videoId,
            url := some (String.append (String.append "/videos/" videoId) ".mp4"),
            error := none, artifact := some StoredArtifact.mergedAV }
        else
          { success := false, videoId := none, url := none,
            error := some (String.append "ffmpeg failed with exit code "
              (toString env.mergeExitCode)),
            artifact := none }
      else
        { success := true, videoId := some videoId,
          url := some (String.append (String.append "/videos/" videoId) ".mp4"),
          error := none, artifact := some StoredArtifact.videoOnly }
    else
      { success := true, videoId := some videoId,
        url := some (String.append (String.append "/videos/" videoId) ".mp4"),
        error := none, artifact := some StoredArtifact.videoOnly }
  else
    { success := false, videoId := none, url := none,
      error := some "Failed to download video", artifact := none }

/-! ## Network interceptor (src/services/instagramScraper.js lines 429-455) -/

/-- The interceptor slot and the two session-wide captured-URL sets.
`capturedVideos` / `capturedAudios` model the JS `Set`s as insertion-ordered
duplicate-free lists (JS `Set` iteration order is insertion order; the image
branch of the walker reads the most recently inserted element). -/
structure MediaSlot where
  video : Option String
  audio : Option String
deriving DecidableEq

/-- State owned by the `page.on('request', ...)` listener. -/
structure InterceptState where
  capturedVideos : List String
  capturedAudios : List String
  slot : MediaSlot
deriving DecidableEq

/-- The request listener body: match the CDN host pattern and the `.mp4`
container marker, strip byte-range parameters, classify, and record the URL —
but only when the normalized URL has not been captured before in this session
(the `Set.has` guards on lines 442 and 448). `efgOf` is the host-environment
decode oracle consumed by the classifier. -/
def onRequest (efgOf : String → EfgResult) (st : InterceptState) (url : String) :
    InterceptState :=
  if (containsSubstr url "fbcdn.net" || containsSubstr url "cdninstagram.com")
      && containsSubstr url ".mp4" then
    let cleanUrl := stripByteRange url
    if isAudioOnly cleanUrl (efgOf cleanUrl) then
      if cleanUrl ∈ st.capturedAudios then st
      else { st with capturedAudios := st.capturedAudios ++ [cleanUrl],
                     slot := { st.slot with audio := some cleanUrl } }
    else
      if cleanUrl ∈ st.capturedVideos then st
      else { st with capturedVideos := st.capturedVideos ++ [cleanUrl],
                     slot := { st.slot with video := some cleanUrl } }
  else st

/-! ## Story walker (`extractStoryDataFromPage`, lines 406-659) -/

/-- Try the regex `stories\/[^\/]+\/(\d+)` at the current position: the literal
`stories/`, a nonempty run of non-slash characters, a slash, then the captured
nonempty digit run. -/
def matchStoryPkAt (s : List Char) : Option String :=
  match dropLit "stories/".data s with
  | none => none
  | some r =>
    let seg := r.takeWhile (fun c => c != '/')
    let r2 := r.dropWhile (fun c => c != '/')
    if seg.isEmpty then none
    else
      match r2 with
      | '/' :: r3 =>
        let ds := r3.takeWhile Char.isDigit
        if ds.isEmpty then none else some (String.mk ds)
      | _ => none

/-- Leftmost match of the story-pk regex, as JS `String.match`. -/
def findStoryPk : List Char → Option String
  | [] => none
  | c :: cs =>
    match matchStoryPkAt (c :: cs) with
    | some pk => some pk
    | none => findStoryPk cs

/-- `currentUrl2.match(/stories\/[^\/]+\/(\d+)/)` capture group (line 482):
the story identifier extracted from the viewer URL, `none` when absent. -/
def extractStoryPk (url : String) : Option String := findStoryPk url.data

/-- DOM signals returned by the in-page `evaluate` call (lines 505-549). -/
structure DomContent where
  isVideo : Bool
  caption : Option String
  link : Option String
  posterUrl : Option String
deriving DecidableEq

/-- Environment inputs of one loop cycle: the location reported by
`page.url()`, the CDN requests that fired during the cycle's waits, the DOM
evaluation result, and the oracles consumed if `processStory` runs this cycle
(the generated uuid and the download/merge outcomes). -/
structure CycleInput where
  url : String
  requests : List String
  dom : DomContent
  procVideoId : String
  procEnv : ProcEnv
deriving DecidableEq

/-- One emitted story object (the element pushed onto `stories`).  The
`taken_at` / `expires_at` timestamps (wall clock) are outside the embedding. -/
structure Story where
  ig_pk : String
  username : String
  caption : Option String
  media_type : Nat
  is_video : Bool
  media_url : String
  original_video_url : Option String
  original_audio_url : Option String
  local_video_id : Option String
  thumbnail_url : String
  permalink : String
  story_link : Option String
deriving DecidableEq

/-- Fixed configuration of a walk: the classifier decode oracle, `SERVER_URL`,
the target username and `config.instagramUrl`. -/
structure WalkParams where
  efgOf : String → EfgResult
  serverUrl : String
  username : String
  instagramUrl : String

/-- Mutable state of the `while (noContentCount < 3)` loop. -/
structure WalkState where
  icept : InterceptState
  seenPks : List String
  stories : List Story
  storyIndex : Nat
  noContentCount : Nat
  lastUrl : String
deriving DecidableEq

/-- The skip guard `storyPk && this.seenPks.has(storyPk)` (line 487). -/
def isSkip (seen : List String) (storyPk : Option String) : Bool :=
  truthyS storyPk && (match storyPk with
    | some pk => decide (pk ∈ seen)
    | none => false)

/-- The permalink string built for an emitted story (lines 591 and 623). -/
def permalinkOf (P : WalkParams) (pk : String) : String :=
  String.append (String.append (String.append (String.append
    P.instagramUrl "/stories/") P.username) "/") (String.append pk "/")

/-- The image-URL selection of the image branch (lines 601-609): the most
recently inserted element of the session-wide captured-video set when that set
is nonempty, else the DOM poster URL when truthy and not a `blob:` handle. -/
def selectImageUrl (ic : InterceptState) (dom : DomContent) : Option String :=
  match ic.capturedVideos.getLast? with
  | some u => some u
  | none =>
    if truthyS dom.posterUrl && !strStartsWith (jsGet dom.posterUrl) "blob:"
    then dom.posterUrl else none

/-- The evaluation of one non-skipped story (lines 504-647): snapshot the slot,
reset it, then the video branch (lines 559-598), the image branch (lines
599-630), or the idle fallthrough (lines 631-634), followed by `storyIndex++`.
`nCC` and `lu` are the `noContentCount` / `lastUrl` values already updated by
the URL-progress check at the top of the cycle. -/
def evalStory (P : WalkParams) (st : WalkState) (ic : InterceptState)
    (nCC : Nat) (lu : String) (storyPk : Option String) (inp : CycleInput) : WalkState :=
  let videoUrl := ic.slot.video
  let audioUrl := ic.slot.audio
  let ic2 : InterceptState := { ic with slot := { video := none, audio := none } }
  if truthyS videoUrl && truthyS storyPk && inp.dom.isVideo then
    let pk := jsGet storyPk
    if pk ∈ st.seenPks then
      { st with icept := ic2, noContentCount := nCC, lastUrl := lu,
                storyIndex := st.storyIndex + 1 }
    else
      let pres := processStory inp.procVideoId audioUrl inp.procEnv
      let finalMediaUrl := if pres.success then String.append P.serverUrl (jsGet pres.url)
                           else jsGet videoUrl
      let story : Story :=
        { ig_pk := pk, username := P.username, caption := inp.dom.caption,
          media_type := 2, is_video := true, media_url := finalMediaUrl,
          original_video_url := videoUrl, original_audio_url := audioUrl,
          local_video_id := if pres.success then pres.videoId else none,
          thumbnail_url := if truthyS inp.dom.posterUrl then jsGet inp.dom.posterUrl
                           else jsGet videoUrl,
          permalink := permalinkOf P pk, story_link := inp.dom.link }
      { icept := ic2, seenPks := st.seenPks ++ [pk], stories := st.stories ++ [story],
        noContentCount := nCC, lastUrl := lu, storyIndex := st.storyIndex + 1 }
  else if truthyS storyPk && !inp.dom.isVideo then
    let pk := jsGet storyPk
    let imageUrl : Option String := selectImageUrl ic inp.dom
    if truthyS imageUrl && !decide (pk ∈ st.seenPks) then
      let story : Story :=
        { ig_pk := pk, username := P.username, caption := inp.dom.caption,
          media_type := 1, is_video := false, media_url := jsGet imageUrl,
          original_video_url := none, original_audio_url := none,
          local_video_id := none, thumbnail_url := jsGet imageUrl,
          permalink := permalinkOf P pk, story_link := inp.dom.link }
      { icept := ic2, seenPks := st.seenPks ++ [pk], stories := st.stories ++ [story],
        noContentCount := nCC, lastUrl := lu, storyIndex := st.storyIndex + 1 }
    else
      { st with icept := ic2, noContentCount := nCC + 1, lastUrl := lu,
                storyIndex := st.storyIndex + 1 }
  else
    { st with icept := ic2, noContentCount := nCC + 1, lastUrl := lu,
              storyIndex := st.storyIndex + 1 }

/-- One full cycle of the walk loop (lines 465-648): apply the cycle's
intercepted requests, run the URL-progress check (lines 473-479: unchanged
location after the first cycle increments `noContentCount`, otherwise the
counter resets to zero and `lastUrl` advances), extract the story pk, and
either take the already-seen skip path (lines 487-502: `storyIndex++` and
`continue`, leaving the capture slot untouched) or evaluate the story. -/
def walkStep (P : WalkParams) (st : WalkState) (inp : CycleInput) : WalkState :=
  let ic := inp.requests.foldl (onRequest P.efgOf) st.icept
  let progressStall := inp.url = st.lastUrl ∧ st.storyIndex > 0
  let nCC := if progressStall then st.noContentCount + 1 else 0
  let lu := if progressStall then st.lastUrl else inp.url
  let storyPk := extractStoryPk inp.url
  if isSkip st.seenPks storyPk then
    { st with icept := ic, noContentCount := nCC, lastUrl := lu,
              storyIndex := st.storyIndex + 1 }
  else
    evalStory P st ic nCC lu storyPk inp

/-- The `while (noContentCount < 3)` loop over a finite trace of cycle inputs. -/
def walkRun (P : WalkParams) : WalkState → List CycleInput → WalkState
  | st, [] => st
  | st, inp :: rest =>
    if st.noContentCount < 3 then walkRun P (walkStep P st inp) rest else st

/-- Initial loop state: empty capture state, the seen-set pre-loaded from the
tracker, no stories, `storyIndex = 0`, `noContentCount = 0`, `lastUrl = ''`. -/
def initWalkState (seen : List String) : WalkState :=
  { icept := { capturedVideos := [], capturedAudios := [], slot := { video := none, audio := none } },
    seenPks := seen, stories := [], storyIndex := 0, noContentCount := 0, lastUrl := "" }

/-- `extractStoryDataFromPage` (lines 406-659): return `[]` immediately unless
the current location contains `/stories/` (lines 413-418), otherwise run the
walk loop and return the accumulated batch. -/
def extractStoryDataFromPage (P : WalkParams) (seen : List String)
    (initialUrl : String) (inputs : List CycleInput) : List Story :=
  if containsSubstr initialUrl "/stories/" then (walkRun P (initWalkState seen) inputs).stories
  else []

/-! ## Range media server (`GET /stream/:id.mp4`, src/unnamed/part_000 lines 60-100) -/

/-- The response observed by the client: status, the `Content-Range` header if
set, the `Content-Length` header, and the streamed bytes. -/
structure HttpResponse where
  status : Nat
  contentRange : Option String
  contentLength : Option Int
  body : List Nat
deriving DecidableEq

/-- The bytes emitted by `fs.createReadStream(path, {start, end})` (inclusive
bounds): for `0 ≤ start ≤ end` the bytes at indices `start..min(end, size-1)`,
nothing for an out-of-range pair (Node rejects a negative or inverted range,
which the embedding renders as an empty stream). -/
def readStreamRange (file : List Nat) (start endV : Int) : List Nat :=
  if start < 0 ∨ endV < start then []
  else (file.drop start.toNat).take (endV - start + 1).toNat

/-- The `/stream/:id.mp4` handler over the looked-up file (`none` when
`videoExists` failed) and the parsed `Range` header: `range.replace(/bytes=/,
'').split('-')` gives `start` and an optional `end` (defaulting to
`fileSize - 1`), and the handler — with no validation of the pair — always
answers 206 with `Content-Range: bytes start-end/fileSize`, `Content-Length:
end - start + 1`, and the created read stream; without a `Range` header it
answers 200 with the whole file. -/
def streamHandler (file? : Option (List Nat)) (range : Option (Int × Option Int)) :
    HttpResponse :=
  match file? with
  | none => { status := 404, contentRange := none, contentLength := none, body := [] }
  | some file =>
    let fileSize : Int := file.length
    match range with
    | some (start, endOpt) =>
      let endV := match endOpt with | some e => e | none => fileSize - 1
      let chunkSize := endV - start + 1
      { status := 206,
        contentRange := some (String.append (String.append (String.append
          (String.append (String.append "bytes " (toString start)) "-")
          (toString endV)) "/") (toString fileSize)),
        contentLength := some chunkSize,
        body := readStreamRange file start endV }
    | none =>
      { status := 200, contentRange := none, contentLength := some fileSize, body := file }

/-! ## Shared concrete scenario material for counterexamples and witnesses -/

/-- Walk parameters used in concrete scenarios: the decode oracle never
resolves an `efg` parameter, so classification is by path markers alone. -/
def cexParams : WalkParams :=
  { efgOf := fun _ => EfgResult.err, serverUrl := "http://localhost:3000",
    username := "tt", instagramUrl := "https://www.instagram.com" }

/-- A CDN video URL (no `/m78/` marker, so classified video). -/
def cexVidUrl : String := "https://scontent.cdninstagram.com/v/vid1.mp4"

/-- A CDN audio URL (`/m78/` marker). -/
def cexAudUrl : String := "https://scontent.cdninstagram.com/v/m78/aud1.mp4"

/-- DOM content of an image story with no poster. -/
def cexDomImage : DomContent :=
  { isVideo := false, caption := none, link := none, posterUrl := none }

/-- DOM content of an image story exposing a non-blob poster URL. -/
def cexDomPoster : DomContent :=
  { isVideo := false, caption := none, link := none,
    posterUrl := some "https://poster.example/p.jpg" }

/-- DOM content of a video story. -/
def cexDomVideo : DomContent :=
  { isVideo := true, caption := none, link := none, posterUrl := none }

/-- Oracle: downloads succeed, merge exits 0. -/
def cexEnvOk : ProcEnv :=
  { videoDownloadOk := true, audioDownloadOk := true, mergeExitCode := 1 - 1 }

/-- Oracle: downloads succeed, merge exits 1 (simulated non-zero exit). -/
def cexEnvMergeFail : ProcEnv :=
  { videoDownloadOk := true, audioDownloadOk := true, mergeExitCode := 1 }

/-- Cycle at story 111 (already in the seen set) during which a video URL is
intercepted: the walker takes the skip path. -/
def cexInpSkip111 : CycleInput :=
  { url := "https://www.instagram.com/stories/tt/111/", requests := [cexVidUrl],
    dom := cexDomImage, procVideoId := "id1", procEnv := cexEnvOk }

/-- Cycle at a viewer URL carrying no story id, during which a video URL is
intercepted (nothing is emitted; the capture sets grow). -/
def cexInpNoPk : CycleInput :=
  { url := "https://www.instagram.com/stories/tt/", requests := [cexVidUrl],
    dom := cexDomImage, procVideoId := "id1", procEnv := cexEnvOk }

/-- Cycle at image story 222 with a poster URL and no network capture. -/
def cexInpImg222 : CycleInput :=
  { url := "https://www.instagram.com/stories/tt/222/", requests := [],
    dom := cexDomPoster, procVideoId := "id2", procEnv := cexEnvOk }

/-- Cycle at video story 222 with no network capture this cycle. -/
def cexInpVid222Quiet : CycleInput :=
  { url := "https://www.instagram.com/stories/tt/222/", requests := [],
    dom := cexDomVideo, procVideoId := "id2", procEnv := cexEnvMergeFail }

/-- Cycle at video story 222 capturing both streams, with the merge oracle
exiting non-zero. -/
def cexInpVid222MergeFail : CycleInput :=
  { url := "https://www.instagram.com/stories/tt/222/", requests := [cexVidUrl, cexAudUrl],
    dom := cexDomVideo, procVideoId := "vid0", procEnv := cexEnvMergeFail }

/-- An idle cycle: constant viewer location, no capture, image-flagged DOM
with nothing to emit. -/
def cexInpIdle : CycleInput :=
  { url := "https://www.instagram.com/stories/tt/", requests := [],
    dom := cexDomImage, procVideoId := "x", procEnv := cexEnvOk }

/-! # Theorems -/

/-! ## Claim C7 — classifier decision order, and C10 — classifier totality -/

/-- C7: the classifier `isAudioOnly` decides in fixed order with first match
winning: the audio-tier path segment `/m78/` gives audio; otherwise the
video-tier segment `/m367/` gives video; otherwise the decoded encoding
descriptor gives audio exactly when its tag contains "audio" and no "vp9" or
"avc" codec hint; any decode failure gives video.  Formally: `isAudioOnly`
answers audio exactly when the spec-side classifier `classifySpec` (written
from the spec's decision procedure) answers audio, for every URL and every
decode outcome. -/
theorem claim_C7_classifier_order : ∀ (url : String) (efg : EfgResult),
    isAudioOnly url efg = true ↔ classifySpec url efg = MediaKind.audio := by
  intro url efg
  unfold isAudioOnly classifySpec
  by_cases h78 : containsSubstr url "/m78/" = true
  · simp [h78]
  · by_cases h367 : containsSubstr url "/m367/" = true
    · simp [Bool.not_eq_true] at h78
      simp [h78, h367]
    · simp [Bool.not_eq_true] at h78 h367
      cases efg with
      | noParam => simp [h78, h367]
      | err => simp [h78, h367]
      | ok tagOpt =>
        simp only [h78, h367, Bool.false_eq_true, if_false]
        cases htag : (containsSubstr ((tagOpt.getD "").toLower) "audio"
            && !containsSubstr ((tagOpt.getD "").toLower) "vp9"
            && !containsSubstr ((tagOpt.getD "").toLower) "avc")
        · simp
        · simp

/-- C10: the classifier is total and deterministic over arbitrary strings: it
is a pure function into `Bool` (so for every input it yields `true` or
`false`), and on every failing decode — URL parsing, base64 or JSON failure
(`err`) and missing parameter (`noParam`) alike — it returns the video
classification unless the audio path marker already decided: the result then
equals exactly the `/m78/` marker test. -/
theorem claim_C10_classifier_total : ∀ (url : String),
    (∀ efg : EfgResult, isAudioOnly url efg = true ∨ isAudioOnly url efg = false) ∧
    isAudioOnly url EfgResult.err = containsSubstr url "/m78/" ∧
    isAudioOnly url EfgResult.noParam = containsSubstr url "/m78/" := by
  intro url
  refine ⟨fun efg => ?_, ?_, ?_⟩
  · cases h : isAudioOnly url efg
    · right; rfl
    · left; rfl
  · unfold isAudioOnly
    by_cases h78 : containsSubstr url "/m78/" = true
    · simp [h78]
    · simp [Bool.not_eq_true] at h78
      by_cases h367 : containsSubstr url "/m367/" = true
      · simp [h78, h367]
      · simp [Bool.not_eq_true] at h367
        simp [h78, h367]
  · unfold isAudioOnly
    by_cases h78 : containsSubstr url "/m78/" = true
    · simp [h78]
    · simp [Bool.not_eq_true] at h78
      by_cases h367 : containsSubstr url "/m367/" = true
      · simp [h78, h367]
      · simp [Bool.not_eq_true] at h367
        simp [h78, h367]

/-! ## Claim C6 — ledger filter/mark algebra -/

/-- Every story surviving `filterGo` has an identifier outside the persisted
set and outside the in-batch seen set the call started from. -/
theorem filterGo_mem (pids : List String) :
    ∀ (l : List JsStory) (seen : List (Option String)) (s : JsStory),
      s ∈ filterGo pids seen l →
      processedMem pids (storyId s) = false ∧ storyId s ∉ seen := by
  intro l
  induction l with
  | nil => intro seen s hs; simp [filterGo] at hs
  | cons a rest ih =>
    intro seen s hs
    unfold filterGo at hs
    by_cases h1 : storyId a ∈ seen
    · rw [if_pos h1] at hs
      exact ih seen s hs
    · rw [if_neg h1] at hs
      by_cases h2 : processedMem pids (storyId a) = true
      · rw [if_pos h2] at hs
        have := ih (storyId a :: seen) s hs
        exact ⟨this.1, fun hmem => this.2 (List.mem_cons_of_mem _ hmem)⟩
      · rw [if_neg h2] at hs
        rcases List.mem_cons.mp hs with rfl | hs'
        · exact ⟨Bool.not_eq_true _ ▸ (by simpa using h2), h1⟩
        · have := ih (storyId a :: seen) s hs'
          exact ⟨this.1, fun hmem => this.2 (List.mem_cons_of_mem _ hmem)⟩

/-- The identifiers of the stories surviving `filterGo` are pairwise distinct. -/
theorem filterGo_nodup (pids : List String) :
    ∀ (l : List JsStory) (seen : List (Option String)),
      ((filterGo pids seen l).map storyId).Nodup := by
  intro l
  induction l with
  | nil => intro seen; simp [filterGo]
  | cons a rest ih =>
    intro seen
    unfold filterGo
    by_cases h1 : storyId a ∈ seen
    · rw [if_pos h1]; exact ih seen
    · rw [if_neg h1]
      by_cases h2 : processedMem pids (storyId a) = true
      · rw [if_pos h2]; exact ih _
      · rw [if_neg h2]
        simp only [List.map_cons, List.nodup_cons]
        refine ⟨?_, ih (storyId a :: seen)⟩
        intro hmem
        rcases List.mem_map.mp hmem with ⟨t, ht, hid⟩
        have := (filterGo_mem pids rest (storyId a :: seen) t ht).2
        exact this (hid ▸ List.mem_cons_self _ _)

/-- A batch whose identifiers are fresh (not persisted, not in the seen set,
pairwise distinct) passes `filterGo` unchanged. -/
theorem filterGo_id (pids : List String) :
    ∀ (l : List JsStory) (seen : List (Option String)),
      (∀ s ∈ l, processedMem pids (storyId s) = false ∧ storyId s ∉ seen) →
      (l.map storyId).Nodup →
      filterGo pids seen l = l := by
  intro l
  induction l with
  | nil => intro seen _ _; rfl
  | cons a rest ih =>
    intro seen hfresh hnd
    have ha := hfresh a (List.mem_cons_self _ _)
    unfold filterGo
    rw [if_neg ha.2, if_neg (by simp [ha.1])]
    congr 1
    apply ih
    · intro s hs
      have hsf := hfresh s (List.mem_cons_of_mem _ hs)
      refine ⟨hsf.1, ?_⟩
      intro hmem
      rcases List.mem_cons.mp hmem with heq | hmem'
      · simp only [List.map_cons, List.nodup_cons] at hnd
        exact hnd.1 (heq ▸ List.mem_map_of_mem storyId hs)
      · exact hsf.2 hmem'
    · simp only [List.map_cons, List.nodup_cons] at hnd
      exact hnd.2

/-- A batch whose identifiers are all persisted is filtered to nothing. -/
theorem filterGo_all_processed (pids : List String) :
    ∀ (l : List JsStory) (seen : List (Option String)),
      (∀ s ∈ l, processedMem pids (storyId s) = true) →
      filterGo pids seen l = [] := by
  intro l
  induction l with
  | nil => intro seen _; rfl
  | cons a rest ih =>
    intro seen hall
    unfold filterGo
    by_cases h1 : storyId a ∈ seen
    · rw [if_pos h1]
      exact ih seen (fun s hs => hall s (List.mem_cons_of_mem _ hs))
    · rw [if_neg h1, if_pos (hall a (List.mem_cons_self _ _))]
      exact ih _ (fun s hs => hall s (List.mem_cons_of_mem _ hs))

/-- `addStoryIds` contains the old persisted ids and all the given ids. -/
theorem addStoryIds_mem :
    ∀ (ids pids : List String) (x : String),
      (x ∈ pids ∨ x ∈ ids) → x ∈ addStoryIds pids ids := by
  intro ids
  induction ids with
  | nil =>
    intro pids x hx
    rcases hx with hx | hx
    · exact hx
    · simp at hx
  | cons i rest ih =>
    intro pids x hx
    show x ∈ addStoryIds (if i ∈ pids then pids else pids ++ [i]) rest
    apply ih
    by_cases hip : i ∈ pids
    · rw [if_pos hip]
      rcases hx with hx | hx
      · exact Or.inl hx
      · rcases List.mem_cons.mp hx with rfl | hx'
        · exact Or.inl hip
        · exact Or.inr hx'
    · rw [if_neg hip]
      rcases hx with hx | hx
      · exact Or.inl (List.mem_append_left _ hx)
      · rcases List.mem_cons.mp hx with rfl | hx'
        · exact Or.inl (List.mem_append_right _ (List.mem_singleton_self _))
        · exact Or.inr hx'

/-- C6 amended: `filterNew` (i.e. `filterProcessedStories`) is idempotent on an
unchanged ledger, exactly as claimed; and after `markAsProcessed(batch)` a
rerun of `filterNew` on the same batch returns the empty list PROVIDED every
story of the batch resolves to a truthy identifier (`ig_pk` falling back to
`media_url`) — `markAsProcessed` drops falsy identifiers (`.filter(id => id)`)
while `filterProcessedStories` still passes such stories through, which is the
one corner the original claim misses. -/
theorem claim_C6_filter_mark : ∀ (pids : List String) (l : List JsStory),
    filterProcessedStories pids (filterProcessedStories pids l) =
      filterProcessedStories pids l ∧
    ((∀ s ∈ l, truthyS (storyId s) = true) →
      filterProcessedStories (markAsProcessed pids l) l = []) := by
  intro pids l
  constructor
  · unfold filterProcessedStories
    apply filterGo_id
    · intro s hs
      have := filterGo_mem pids l [] s hs
      exact ⟨this.1, this.2⟩
    · exact filterGo_nodup pids l []
  · intro htruthy
    unfold filterProcessedStories
    apply filterGo_all_processed
    intro s hs
    have ht := htruthy s hs
    cases hid : storyId s with
    | none => rw [hid] at ht; simp [truthyS] at ht
    | some x =>
      have hx : x ≠ "" := by
        rw [hid] at ht; simpa [truthyS] using ht
      simp only [processedMem, decide_eq_true_eq]
      apply addStoryIds_mem
      right
      apply List.mem_filterMap.mpr
      exact ⟨s, hs, by rw [hid]; simp [hx]⟩

/-- C6 counterexample: the claim as stated fails on a batch containing a story
with neither a platform id nor a media URL (both nullish): `markAsProcessed`
filters its falsy identifier out and persists nothing, and the subsequent
`filterProcessedStories` over the very same batch returns the story again
instead of the claimed empty list. -/
theorem claim_C6_counterexample :
    filterProcessedStories (markAsProcessed []
        [{ ig_pk := none, media_url := none }]) [{ ig_pk := none, media_url := none }] =
      [{ ig_pk := none, media_url := none }] ∧
    ¬ (filterProcessedStories (markAsProcessed []
        [{ ig_pk := none, media_url := none }]) [{ ig_pk := none, media_url := none }] = []) := by
  constructor
  · rfl
  · decide

/-- Witness for C6: on a batch of one story with a truthy platform id, both
conjuncts evaluate as stated. -/
theorem claim_C6_witness :
    filterProcessedStories ["9"] (filterProcessedStories ["9"]
        [{ ig_pk := some "1", media_url := some "u" }]) =
      filterProcessedStories ["9"] [{ ig_pk := some "1", media_url := some "u" }] ∧
    filterProcessedStories (markAsProcessed ["9"]
        [{ ig_pk := some "1", media_url := some "u" }])
        [{ ig_pk := some "1", media_url := some "u" }] = [] := by
  have h := claim_C6_filter_mark ["9"] [{ ig_pk := some "1", media_url := some "u" }]
  exact ⟨h.1, h.2 (by decide)⟩

/-! ## Claim C1 — merge failure handling in the reconciliation pipeline -/

/-- C1 counterexample: with the video and audio downloads succeeding and the
merge process exiting 1, `processStory` does NOT return a success result with a
video-only artifact — the `combineVideoAudio` rejection propagates to the
catch block, which unlinks the output file and returns `{success: false}`. -/
theorem claim_C1_counterexample :
    ¬ ((processStory "vid0" (some "https://aud") ⟨true, true, 1⟩).success = true ∧
       (processStory "vid0" (some "https://aud") ⟨true, true, 1⟩).artifact =
         some StoredArtifact.videoOnly) := by
  decide

/-- C1 amended: when the video download succeeds, the audio download succeeds
and the external merge exits non-zero, `processStory` returns a FAILURE result
carrying the ffmpeg exit code and leaves no artifact in the store (the output
file is deleted by the catch block); the walker is nevertheless not aborted —
on a pipeline failure it still emits the video `StoryItem`, with the original
captured CDN URL as its media URL and no local artifact reference. -/
theorem claim_C1_merge_failure : ∀ (vid : String) (aUrl : Option String) (env : ProcEnv),
    truthyS aUrl = true → env.videoDownloadOk = true → env.audioDownloadOk = true →
    env.mergeExitCode ≠ 0 →
    ((processStory vid aUrl env).success = false ∧
     (processStory vid aUrl env).artifact = none ∧
     (processStory vid aUrl env).error =
       some ("ffmpeg failed with exit code " ++ toString env.mergeExitCode)) ∧
    (∀ (P : WalkParams) (st : WalkState) (inp : CycleInput) (pk v : String),
      extractStoryPk inp.url = some pk → pk ≠ "" → pk ∉ st.seenPks →
      (inp.requests.foldl (onRequest P.efgOf) st.icept).slot.video = some v → v ≠ "" →
      (inp.requests.foldl (onRequest P.efgOf) st.icept).slot.audio = aUrl →
      inp.dom.isVideo = true → inp.procEnv = env → inp.procVideoId = vid →
      (walkStep P st inp).stories = st.stories ++
        [{ ig_pk := pk, username := P.username, caption := inp.dom.caption,
           media_type := 2, is_video := true, media_url := v,
           original_video_url := some v, original_audio_url := aUrl,
           local_video_id := none,
           thumbnail_url := if truthyS inp.dom.posterUrl then jsGet inp.dom.posterUrl else v,
           permalink := permalinkOf P pk, story_link := inp.dom.link }]) := by
  intro vid aUrl env htru hvdl hadl hm
  have hfail : (processStory vid aUrl env).success = false ∧
      (processStory vid aUrl env).artifact = none ∧
      (processStory vid aUrl env).error =
        some ("ffmpeg failed with exit code " ++ toString env.mergeExitCode) := by
    unfold processStory
    rw [hvdl, htru, hadl]
    simp [hm]
    rfl
  refine ⟨hfail, ?_⟩
  intro P st inp pk v hpk hpkne hseen hvid hvne haud hdom henv hvidid
  have hskip : isSkip st.seenPks (some pk) = false := by
    simp [isSkip, hseen]
  simp only [walkStep, hpk, hskip, Bool.false_eq_true, if_false]
  simp only [evalStory, hvid, haud, hdom, henv, hvidid]
  simp only [truthyS, jsGet, Option.getD]
  rw [if_pos (by simp [hvne, hpkne])]
  rw [if_neg hseen]
  simp only [hfail.1, Bool.false_eq_true, if_false]

/-- Witness for C1: the amended behavior at a concrete merge-failure scenario —
`processStory` fails with exit code 1 and the walk cycle at story 222 with both
streams captured still emits the story with the original video URL. -/
theorem claim_C1_witness :
    ((processStory "vid0" (some "https://scontent.cdninstagram.com/v/m78/aud1.mp4")
        cexEnvMergeFail).success = false ∧
     (processStory "vid0" (some "https://scontent.cdninstagram.com/v/m78/aud1.mp4")
        cexEnvMergeFail).artifact = none ∧
     (processStory "vid0" (some "https://scontent.cdninstagram.com/v/m78/aud1.mp4")
        cexEnvMergeFail).error = some ("ffmpeg failed with exit code " ++ toString (1 : Nat))) ∧
    (walkStep cexParams (initWalkState []) cexInpVid222MergeFail).stories =
      [{ ig_pk := "222", username := "tt", caption := none,
         media_type := 2, is_video := true,
         media_url := "https://scontent.cdninstagram.com/v/vid1.mp4",
         original_video_url := some "https://scontent.cdninstagram.com/v/vid1.mp4",
         original_audio_url := some "https://scontent.cdninstagram.com/v/m78/aud1.mp4",
         local_video_id := none,
         thumbnail_url := "https://scontent.cdninstagram.com/v/vid1.mp4",
         permalink := "https://www.instagram.com/stories/tt/222/",
         story_link := none }] := by
  have h := claim_C1_merge_failure "vid0"
    (some "https://scontent.cdninstagram.com/v/m78/aud1.mp4") cexEnvMergeFail
    (by decide) (by decide) (by decide) (by decide)
  refine ⟨h.1, ?_⟩
  have h2 := h.2 cexParams (initWalkState []) cexInpVid222MergeFail "222"
    "https://scontent.cdninstagram.com/v/vid1.mp4"
    (by decide) (by decide) (by decide) (by decide) (by decide) (by decide)
    (by decide) (by decide) (by decide)
  rw [h2]
  decide

/-! ## Claim C2 — range media server -/

/-- C2 counterexample: the handler performs NO validation of the parsed range.
On a 2-byte artifact, the range `0-5` violates `end < fileSize`, yet the
handler still answers 206 and declares `Content-Range: bytes 0-5/2` with
`Content-Length: 6` — there is no validation step rejecting it. -/
theorem claim_C2_counterexample :
    (streamHandler (some [7, 7]) (some (0, some 5))).status = 206 ∧
    (streamHandler (some [7, 7]) (some (0, some 5))).contentRange = some "bytes 0-5/2" ∧
    (streamHandler (some [7, 7]) (some (0, some 5))).contentLength = some 6 ∧
    ¬ ((5 : Int) < (([7, 7] : List Nat).length : Int)) := by
  refine ⟨rfl, rfl, rfl, by decide⟩

/-- C2 amended: the handler validates nothing — every parsed `start-end` range
gets status 206 (valid or not).  When the range happens to satisfy
`0 ≤ start ≤ end < fileSize` the 206 response carries exactly the claimed
headers (`Content-Range: bytes start-end/fileSize`, `Content-Length:
end-start+1`) and exactly the requested bytes; with no `Range` header the
response is 200 with `Content-Length: fileSize` and the full file. -/
theorem claim_C2_stream_range : ∀ (file : List Nat) (s e : Int),
    (∀ (s' : Int) (eo : Option Int),
      (streamHandler (some file) (some (s', eo))).status = 206) ∧
    (streamHandler (some file) none =
      { status := 200, contentRange := none,
        contentLength := some (file.length : Int), body := file }) ∧
    (0 ≤ s → s ≤ e → e < (file.length : Int) →
      streamHandler (some file) (some (s, some e)) =
        { status := 206,
          contentRange := some ("bytes " ++ toString s ++ "-" ++ toString e ++ "/" ++
            toString (file.length : Int)),
          contentLength := some (e - s + 1),
          body := (file.drop s.toNat).take (e - s + 1).toNat }) := by
  intro file s e
  refine ⟨fun s' eo => rfl, rfl, fun h0 hse hef => ?_⟩
  simp only [streamHandler, readStreamRange]
  rw [if_neg (by omega)]
  rfl

/-- Witness for C2: the spec's own example — `bytes=0-99` on a 1000-byte
artifact yields 206, `Content-Range: bytes 0-99/1000`, `Content-Length: 100`
and exactly the first 100 bytes; no Range header yields 200 and the whole
artifact. -/
theorem claim_C2_witness :
    (streamHandler (some (List.range 1000)) (some (0, some 99))).status = 206 ∧
    (streamHandler (some (List.range 1000)) (some (0, some 99))).contentRange =
      some "bytes 0-99/1000" ∧
    (streamHandler (some (List.range 1000)) (some (0, some 99))).contentLength = some 100 ∧
    (streamHandler (some (List.range 1000)) (some (0, some 99))).body = List.range 100 ∧
    (streamHandler (some (List.range 1000)) none).status = 200 ∧
    (streamHandler (some (List.range 1000)) none).body = List.range 1000 := by
  have h := claim_C2_stream_range (List.range 1000) 0 99
  have hr := h.2.2 (by decide) (by decide) (by simp)
  exact ⟨by rw [hr], by rw [hr]; decide, by rw [hr]; decide, by rw [hr]; decide,
    by rw [h.2.1], by rw [h.2.1]⟩

/-! ## Claim C4 — capture-slot overwrite semantics -/

/-- C4 counterexample: a matching audio request whose normalized URL was
already observed earlier in the session does NOT refill the slot.  Starting
from a state where the URL is in the session set but the slot is empty (as
after a slot reset), `onRequest` leaves the whole state unchanged — the
`Set.has` guard fires — so the slot does not hold the most recent capture. -/
theorem claim_C4_counterexample :
    onRequest (fun _ => EfgResult.err)
      { capturedAudios := ["https://scontent.cdninstagram.com/v/m78/aud1.mp4"],
        capturedVideos := [], slot := { video := none, audio := none } }
      "https://scontent.cdninstagram.com/v/m78/aud1.mp4" =
      { capturedAudios := ["https://scontent.cdninstagram.com/v/m78/aud1.mp4"],
        capturedVideos := [], slot := { video := none, audio := none } } ∧
    ¬ ((onRequest (fun _ => EfgResult.err)
      { capturedAudios := ["https://scontent.cdninstagram.com/v/m78/aud1.mp4"],
        capturedVideos := [], slot := { video := none, audio := none } }
      "https://scontent.cdninstagram.com/v/m78/aud1.mp4").slot.audio =
      some (stripByteRange "https://scontent.cdninstagram.com/v/m78/aud1.mp4")) := by
  constructor
  · decide
  · decide

/-- C4 amended: the slot field for a kind is overwritten with the normalized
URL exactly on the FIRST observation of that normalized URL in the session:
when the normalized URL is not yet in the session-wide captured set of its
kind, the capture overwrites any previous slot value of that kind (and appends
to the set); when it is already in the set — e.g. a repeated fetch of the same
logical asset after a slot reset — the interceptor leaves the state, slot
included, completely unchanged. -/
theorem claim_C4_first_capture_overwrites :
    ∀ (efgOf : String → EfgResult) (st : InterceptState) (url : String),
    ((containsSubstr url "fbcdn.net" || containsSubstr url "cdninstagram.com")
        && containsSubstr url ".mp4") = true →
    (isAudioOnly (stripByteRange url) (efgOf (stripByteRange url)) = true →
      (stripByteRange url ∉ st.capturedAudios →
        onRequest efgOf st url =
          { st with capturedAudios := st.capturedAudios ++ [stripByteRange url],
                    slot := { st.slot with audio := some (stripByteRange url) } }) ∧
      (stripByteRange url ∈ st.capturedAudios → onRequest efgOf st url = st)) ∧
    (isAudioOnly (stripByteRange url) (efgOf (stripByteRange url)) = false →
      (stripByteRange url ∉ st.capturedVideos →
        onRequest efgOf st url =
          { st with capturedVideos := st.capturedVideos ++ [stripByteRange url],
                    slot := { st.slot with video := some (stripByteRange url) } }) ∧
      (stripByteRange url ∈ st.capturedVideos → onRequest efgOf st url = st)) := by
  intro efgOf st url hmatch
  constructor
  · intro haudio
    constructor
    · intro hnot
      unfold onRequest
      rw [if_pos hmatch]
      simp only [haudio, if_true]
      rw [if_neg hnot]
    · intro hmem
      unfold onRequest
      rw [if_pos hmatch]
      simp only [haudio, if_true]
      rw [if_pos hmem]
  · intro hvideo
    constructor
    · intro hnot
      unfold onRequest
      rw [if_pos hmatch]
      simp only [hvideo, Bool.false_eq_true, if_false]
      rw [if_neg hnot]
    · intro hmem
      unfold onRequest
      rw [if_pos hmatch]
      simp only [hvideo, Bool.false_eq_true, if_false]
      rw [if_pos hmem]

/-- Witness for C4: a fresh audio capture fills the audio slot (overwriting a
previous value), and a fresh video capture fills the video slot. -/
theorem claim_C4_witness :
    onRequest (fun _ => EfgResult.err)
      { capturedVideos := [], capturedAudios := [],
        slot := { video := none, audio := some "old" } }
      "https://scontent.cdninstagram.com/v/m78/aud1.mp4" =
      { capturedVideos := [],
        capturedAudios := ["https://scontent.cdninstagram.com/v/m78/aud1.mp4"],
        slot := { video := none,
                  audio := some "https://scontent.cdninstagram.com/v/m78/aud1.mp4" } } ∧
    onRequest (fun _ => EfgResult.err)
      { capturedVideos := [], capturedAudios := [],
        slot := { video := some "old", audio := none } }
      "https://scontent.cdninstagram.com/v/vid1.mp4" =
      { capturedVideos := ["https://scontent.cdninstagram.com/v/vid1.mp4"],
        capturedAudios := [],
        slot := { video := some "https://scontent.cdninstagram.com/v/vid1.mp4",
                  audio := none } } := by
  constructor
  · have h := (claim_C4_first_capture_overwrites (fun _ => EfgResult.err)
      { capturedVideos := [], capturedAudios := [],
        slot := { video := none, audio := some "old" } }
      "https://scontent.cdninstagram.com/v/m78/aud1.mp4" (by decide)).1
      (by decide)
    rw [h.1 (by decide)]
    decide
  · have h := (claim_C4_first_capture_overwrites (fun _ => EfgResult.err)
      { capturedVideos := [], capturedAudios := [],
        slot := { video := some "old", audio := none } }
      "https://scontent.cdninstagram.com/v/vid1.mp4" (by decide)).2
      (by decide)
    rw [h.1 (by decide)]
    decide

/-! ## Claim C3 — capture-slot reset at story boundaries -/

/-- Every branch of the per-story evaluation leaves the capture slot reset. -/
theorem evalStory_slot (P : WalkParams) (st : WalkState) (ic : InterceptState)
    (nCC : Nat) (lu : String) (storyPk : Option String) (inp : CycleInput) :
    (evalStory P st ic nCC lu storyPk inp).icept.slot =
      { video := none, audio := none } := by
  simp only [evalStory]
  repeat' split
  all_goals rfl

/-- C3 counterexample: on the skip transition (story id already in the in-run
seen set) the walker advances WITHOUT resetting the slot — a video URL
intercepted during the skipped story's cycle is still in the slot afterwards,
and in a two-cycle run it leaks into the next story's emitted item: story 222,
whose own cycle intercepts nothing, is emitted with the URL captured during
skipped story 111's cycle as its original video URL. -/
theorem claim_C3_counterexample :
    ¬ ((walkStep cexParams (initWalkState ["111"]) cexInpSkip111).icept.slot =
        { video := none, audio := none }) ∧
    (extractStoryDataFromPage cexParams ["111"]
        "https://www.instagram.com/stories/tt/111/"
        [cexInpSkip111, cexInpVid222Quiet]).map (fun s => s.original_video_url) =
      [some cexVidUrl] := by
  constructor
  · decide
  · decide

/-- C3 amended: the slot is reset to empty at every EVALUATED story boundary —
after any non-skip cycle the slot is `{video: null, audio: null}` — but on the
skip transition the walker merely applies the cycle's intercepted requests and
advances, leaving the slot untouched, so a URL captured during a skipped
story's cycle can persist into the next story's evaluation. -/
theorem claim_C3_slot_reset : ∀ (P : WalkParams) (st : WalkState) (inp : CycleInput),
    (isSkip st.seenPks (extractStoryPk inp.url) = false →
      (walkStep P st inp).icept.slot = { video := none, audio := none }) ∧
    (isSkip st.seenPks (extractStoryPk inp.url) = true →
      (walkStep P st inp).icept = inp.requests.foldl (onRequest P.efgOf) st.icept) := by
  intro P st inp
  constructor
  · intro h
    simp only [walkStep, h, Bool.false_eq_true, if_false]
    exact evalStory_slot P st _ _ _ _ inp
  · intro h
    simp only [walkStep, h, if_true]

/-- Witness for C3: a concrete non-skip cycle ends with an empty slot, and a
concrete skip cycle keeps exactly the interceptor state produced by the
cycle's requests. -/
theorem claim_C3_witness :
    (walkStep cexParams (initWalkState []) cexInpNoPk).icept.slot =
      { video := none, audio := none } ∧
    (walkStep cexParams (initWalkState ["111"]) cexInpSkip111).icept =
      cexInpSkip111.requests.foldl (onRequest cexParams.efgOf)
        (initWalkState ["111"]).icept := by
  exact ⟨(claim_C3_slot_reset cexParams (initWalkState []) cexInpNoPk).1 (by decide),
    (claim_C3_slot_reset cexParams (initWalkState ["111"]) cexInpSkip111).2 (by decide)⟩

/-! ## Claim C5 — image story media-URL selection -/

/-- C5 counterexample: the image branch reads the SESSION-WIDE captured-video
set, not this cycle's captures.  In a two-cycle run, cycle 1 (no story id)
intercepts a video URL; cycle 2 evaluates image story 222 with no interception
at all and a perfectly good non-blob poster URL — yet the emitted item carries
cycle 1's captured URL as its media URL instead of the claimed poster URL. -/
theorem claim_C5_counterexample :
    (extractStoryDataFromPage cexParams [] "https://www.instagram.com/stories/tt/"
        [cexInpNoPk, cexInpImg222]).map (fun s => (s.ig_pk, s.media_url)) =
      [("222", cexVidUrl)] ∧
    cexInpImg222.requests = [] ∧
    cexInpImg222.dom.posterUrl = some "https://poster.example/p.jpg" ∧
    ¬ ((extractStoryDataFromPage cexParams [] "https://www.instagram.com/stories/tt/"
        [cexInpNoPk, cexInpImg222]).map (fun s => s.media_url) =
      ["https://poster.example/p.jpg"]) := by
  refine ⟨by decide, rfl, rfl, by decide⟩

/-- C5 amended: for a non-video story the image URL is taken from the
most recently inserted element of the session-wide captured-video set whenever
that set is nonempty — regardless of which cycle captured it — and only when
the whole session has captured nothing is the DOM poster URL used, provided it
is truthy and not a `blob:` handle. -/
theorem claim_C5_image_selection : ∀ (P : WalkParams) (st : WalkState)
    (inp : CycleInput) (pk : String),
    extractStoryPk inp.url = some pk → pk ≠ "" → pk ∉ st.seenPks →
    inp.dom.isVideo = false →
    (∀ w : String,
      (inp.requests.foldl (onRequest P.efgOf) st.icept).capturedVideos.getLast? = some w →
      w ≠ "" →
      (walkStep P st inp).stories = st.stories ++
        [{ ig_pk := pk, username := P.username, caption := inp.dom.caption,
           media_type := 1, is_video := false, media_url := w,
           original_video_url := none, original_audio_url := none,
           local_video_id := none, thumbnail_url := w,
           permalink := permalinkOf P pk, story_link := inp.dom.link }]) ∧
    ((inp.requests.foldl (onRequest P.efgOf) st.icept).capturedVideos.getLast? = none →
      ∀ p : String, inp.dom.posterUrl = some p → p ≠ "" →
      strStartsWith p "blob:" = false →
      (walkStep P st inp).stories = st.stories ++
        [{ ig_pk := pk, username := P.username, caption := inp.dom.caption,
           media_type := 1, is_video := false, media_url := p,
           original_video_url := none, original_audio_url := none,
           local_video_id := none, thumbnail_url := p,
           permalink := permalinkOf P pk, story_link := inp.dom.link }]) := by
  intro P st inp pk hpk hpkne hseen hdom
  have hskip : isSkip st.seenPks (some pk) = false := by
    simp [isSkip, hseen]
  constructor
  · intro w hlast hwne
    simp only [walkStep, hpk, hskip, Bool.false_eq_true, if_false]
    simp [evalStory, selectImageUrl, hdom, hlast, truthyS, jsGet, hwne, hpkne, hseen]
  · intro hlast p hposter hpne hblob
    simp only [walkStep, hpk, hskip, Bool.false_eq_true, if_false]
    simp [evalStory, selectImageUrl, hdom, hlast, hposter, truthyS, jsGet, hpne, hblob,
      hpkne, hseen]

/-- Witness for C5: at a concrete image-story cycle with an empty session
capture set the poster URL is emitted; after a cycle that captured a video URL,
the same image-story cycle emits that (earlier-cycle) captured URL instead. -/
theorem claim_C5_witness :
    (walkStep cexParams (initWalkState []) cexInpImg222).stories =
      [{ ig_pk := "222", username := "tt", caption := none,
         media_type := 1, is_video := false,
         media_url := "https://poster.example/p.jpg",
         original_video_url := none, original_audio_url := none,
         local_video_id := none, thumbnail_url := "https://poster.example/p.jpg",
         permalink := "https://www.instagram.com/stories/tt/222/",
         story_link := none }] ∧
    (walkStep cexParams (walkStep cexParams (initWalkState []) cexInpNoPk)
        cexInpImg222).stories =
      [{ ig_pk := "222", username := "tt", caption := none,
         media_type := 1, is_video := false,
         media_url := cexVidUrl,
         original_video_url := none, original_audio_url := none,
         local_video_id := none, thumbnail_url := cexVidUrl,
         permalink := "https://www.instagram.com/stories/tt/222/",
         story_link := none }] := by
  constructor
  · have h := (claim_C5_image_selection cexParams (initWalkState []) cexInpImg222 "222"
      (by decide) (by decide) (by decide) (by decide)).2
      (by decide) "https://poster.example/p.jpg" (by decide) (by decide) (by decide)
    rw [h]
    decide
  · have h := (claim_C5_image_selection cexParams
      (walkStep cexParams (initWalkState []) cexInpNoPk) cexInpImg222 "222"
      (by decide) (by decide) (by decide) (by decide)).1
      cexVidUrl (by decide) (by decide)
    rw [h]
    decide

/-! ## Claim C8 — walk termination -/

/-- Every branch of the per-story evaluation advances `storyIndex` by one. -/
theorem evalStory_storyIndex (P : WalkParams) (st : WalkState) (ic : InterceptState)
    (nCC : Nat) (lu : String) (storyPk : Option String) (inp : CycleInput) :
    (evalStory P st ic nCC lu storyPk inp).storyIndex = st.storyIndex + 1 := by
  simp only [evalStory]
  repeat' split
  all_goals rfl

/-- The per-story evaluation never decreases the idle counter handed to it. -/
theorem evalStory_nCC_ge (P : WalkParams) (st : WalkState) (ic : InterceptState)
    (nCC : Nat) (lu : String) (storyPk : Option String) (inp : CycleInput) :
    nCC ≤ (evalStory P st ic nCC lu storyPk inp).noContentCount := by
  simp only [evalStory]
  repeat' split
  all_goals first
  | exact Nat.le_refl _
  | exact Nat.le_succ _

/-- The per-story evaluation stores exactly the `lastUrl` handed to it. -/
theorem evalStory_lastUrl (P : WalkParams) (st : WalkState) (ic : InterceptState)
    (nCC : Nat) (lu : String) (storyPk : Option String) (inp : CycleInput) :
    (evalStory P st ic nCC lu storyPk inp).lastUrl = lu := by
  simp only [evalStory]
  repeat' split
  all_goals rfl

/-- Every walk cycle advances `storyIndex` by one. -/
theorem walkStep_storyIndex (P : WalkParams) (st : WalkState) (inp : CycleInput) :
    (walkStep P st inp).storyIndex = st.storyIndex + 1 := by
  simp only [walkStep]
  split
  · rfl
  · exact evalStory_storyIndex P st _ _ _ _ inp

/-- A cycle whose reported location equals `lastUrl`, beyond the very first
cycle, increments the idle counter by at least one and keeps `lastUrl`. -/
theorem walkStep_stall (P : WalkParams) (st : WalkState) (inp : CycleInput)
    (h : inp.url = st.lastUrl) (hidx : 0 < st.storyIndex) :
    st.noContentCount + 1 ≤ (walkStep P st inp).noContentCount ∧
    (walkStep P st inp).lastUrl = st.lastUrl := by
  have hc : (inp.url = st.lastUrl ∧ st.storyIndex > 0) := ⟨h, hidx⟩
  by_cases hs : isSkip st.seenPks (extractStoryPk inp.url) = true
  · simp only [walkStep, hs, if_true]
    simp [h, hidx]
  · simp only [walkStep, hs, Bool.false_eq_true, if_false]
    rw [if_pos hc, if_pos hc]
    exact ⟨evalStory_nCC_ge P st _ _ _ _ inp, evalStory_lastUrl P st _ _ _ _ inp⟩

/-- The first cycle (storyIndex 0) records the reported location as `lastUrl`. -/
theorem walkStep_first (P : WalkParams) (st : WalkState) (inp : CycleInput)
    (hidx : st.storyIndex = 0) :
    (walkStep P st inp).lastUrl = inp.url := by
  have hc : ¬ (inp.url = st.lastUrl ∧ st.storyIndex > 0) := by
    intro hcon
    rw [hidx] at hcon
    exact absurd hcon.2 (by decide)
  by_cases hs : isSkip st.seenPks (extractStoryPk inp.url) = true
  · simp only [walkStep, hs, if_true]
    simp only [if_neg hc]
  · simp only [walkStep, hs, Bool.false_eq_true, if_false]
    simp only [if_neg hc]
    exact evalStory_lastUrl P st _ _ _ _ inp

/-- Unfolding equation of the loop on a cons cell. -/
theorem walkRun_cons (P : WalkParams) (st : WalkState) (inp : CycleInput)
    (rest : List CycleInput) :
    walkRun P st (inp :: rest) =
      if st.noContentCount < 3 then walkRun P (walkStep P st inp) rest else st := rfl

/-- Once the idle counter has reached three, the loop consumes no further
input. -/
theorem walkRun_stop (P : WalkParams) :
    ∀ (l : List CycleInput) (st : WalkState), 3 ≤ st.noContentCount →
      walkRun P st l = st := by
  intro l
  cases l with
  | nil => intro st _; rfl
  | cons i rest =>
    intro st h
    rw [walkRun_cons, if_neg (by omega)]

/-- If the loop has already stopped (idle counter at three) after a prefix of
the trace, the remainder of the trace is irrelevant. -/
theorem walkRun_append_stable (P : WalkParams) :
    ∀ (l1 l2 : List CycleInput) (st : WalkState),
      3 ≤ (walkRun P st l1).noContentCount →
      walkRun P st (l1 ++ l2) = walkRun P st l1 := by
  intro l1
  induction l1 with
  | nil =>
    intro l2 st h
    exact walkRun_stop P l2 st h
  | cons i rest ih =>
    intro l2 st h
    by_cases hg : st.noContentCount < 3
    · rw [List.cons_append, walkRun_cons, if_pos hg, walkRun_cons, if_pos hg]
      rw [walkRun_cons, if_pos hg] at h
      exact ih l2 _ h
    · rw [List.cons_append, walkRun_cons, if_neg hg, walkRun_cons, if_neg hg]

/-- Four consecutive cycles at an unchanging location drive the idle counter
to three. -/
theorem walkRun_four_stalls (P : WalkParams) (seen : List String) (u : String)
    (i1 i2 i3 i4 : CycleInput)
    (h1 : i1.url = u) (h2 : i2.url = u) (h3 : i3.url = u) (h4 : i4.url = u) :
    3 ≤ (walkRun P (initWalkState seen) [i1, i2, i3, i4]).noContentCount := by
  set s0 := initWalkState seen with hs0
  have hidx0 : s0.storyIndex = 0 := rfl
  have hn0 : s0.noContentCount = 0 := rfl
  set s1 := walkStep P s0 i1 with hs1
  have hlu1 : s1.lastUrl = u := by rw [hs1, walkStep_first P s0 i1 hidx0, h1]
  have hix1 : 0 < s1.storyIndex := by rw [hs1, walkStep_storyIndex]; omega
  set s2 := walkStep P s1 i2 with hs2
  have hst2 := walkStep_stall P s1 i2 (by rw [h2, hlu1]) hix1
  rw [← hs2] at hst2
  have hlu2 : s2.lastUrl = u := by rw [hst2.2, hlu1]
  have hn2 : 1 ≤ s2.noContentCount := by have := hst2.1; omega
  have hix2 : 0 < s2.storyIndex := by rw [hs2, walkStep_storyIndex]; omega
  set s3 := walkStep P s2 i3 with hs3
  have hst3 := walkStep_stall P s2 i3 (by rw [h3, hlu2]) hix2
  rw [← hs3] at hst3
  have hlu3 : s3.lastUrl = u := by rw [hst3.2, hlu2]
  have hn3 : 2 ≤ s3.noContentCount := by have := hst3.1; omega
  have hix3 : 0 < s3.storyIndex := by rw [hs3, walkStep_storyIndex]; omega
  set s4 := walkStep P s3 i4 with hs4
  have hst4 := walkStep_stall P s3 i4 (by rw [h4, hlu3]) hix3
  rw [← hs4] at hst4
  have hn4 : 3 ≤ s4.noContentCount := by have := hst4.1; omega
  rw [walkRun_cons, if_pos (by omega), ← hs1, walkRun_cons]
  by_cases g1 : s1.noContentCount < 3
  · rw [if_pos g1, ← hs2, walkRun_cons]
    by_cases g2 : s2.noContentCount < 3
    · rw [if_pos g2, ← hs3, walkRun_cons]
      by_cases g3 : s3.noContentCount < 3
      · rw [if_pos g3, ← hs4]
        show 3 ≤ (walkRun P s4 []).noContentCount
        exact hn4
      · rw [if_neg g3]
        omega
    · rw [if_neg g2]
      omega
  · rw [if_neg g1]
    omega

/-- C8: the walk terminates.  If the current location is not a story-viewer
URL the walk returns immediately with the empty batch; and when the reported
location never changes, the idle counter reaches three within four cycles, so
the loop consumes no input beyond the first four cycles — the result over any
longer trace equals the result over its first four cycles (the accumulated
batch is returned). -/
theorem claim_C8_termination : ∀ (P : WalkParams) (seen : List String),
    (∀ (u0 : String) (inputs : List CycleInput),
      containsSubstr u0 "/stories/" = false →
      extractStoryDataFromPage P seen u0 inputs = []) ∧
    (∀ (u : String) (i1 i2 i3 i4 : CycleInput) (rest : List CycleInput),
      i1.url = u → i2.url = u → i3.url = u → i4.url = u →
      3 ≤ (walkRun P (initWalkState seen) [i1, i2, i3, i4]).noContentCount ∧
      ∀ u0 : String,
        extractStoryDataFromPage P seen u0 (i1 :: i2 :: i3 :: i4 :: rest) =
          extractStoryDataFromPage P seen u0 [i1, i2, i3, i4]) := by
  intro P seen
  constructor
  · intro u0 inputs h
    unfold extractStoryDataFromPage
    rw [if_neg (by simp [h])]
  · intro u i1 i2 i3 i4 rest h1 h2 h3 h4
    have hidle := walkRun_four_stalls P seen u i1 i2 i3 i4 h1 h2 h3 h4
    refine ⟨hidle, fun u0 => ?_⟩
    unfold extractStoryDataFromPage
    by_cases hview : containsSubstr u0 "/stories/" = true
    · rw [if_pos hview, if_pos hview]
      have : i1 :: i2 :: i3 :: i4 :: rest = [i1, i2, i3, i4] ++ rest := rfl
      rw [this, walkRun_append_stable P [i1, i2, i3, i4] rest (initWalkState seen) hidle]
    · rw [if_neg (by simp [hview]), if_neg (by simp [hview])]

/-- Witness for C8: a non-viewer location returns the empty batch, and with a
constant viewer location the concrete four-cycle run reaches idle three and a
longer trace returns the same batch. -/
theorem claim_C8_witness :
    extractStoryDataFromPage cexParams [] "https://www.instagram.com/" [cexInpIdle] = [] ∧
    3 ≤ (walkRun cexParams (initWalkState [])
      [cexInpIdle, cexInpIdle, cexInpIdle, cexInpIdle]).noContentCount ∧
    extractStoryDataFromPage cexParams [] "https://www.instagram.com/stories/tt/"
        [cexInpIdle, cexInpIdle, cexInpIdle, cexInpIdle, cexInpIdle, cexInpIdle] =
      extractStoryDataFromPage cexParams [] "https://www.instagram.com/stories/tt/"
        [cexInpIdle, cexInpIdle, cexInpIdle, cexInpIdle] := by
  have h := claim_C8_termination cexParams []
  have h2 := h.2 "https://www.instagram.com/stories/tt/" cexInpIdle cexInpIdle cexInpIdle
    cexInpIdle [cexInpIdle, cexInpIdle] rfl rfl rfl rfl
  exact ⟨h.1 "https://www.instagram.com/" [cexInpIdle] (by decide), h2.1,
    h2.2 "https://www.instagram.com/stories/tt/"⟩

/-! ## Claim C9 — emitted batch identifiers -/

/-- A truthy JS nullable string reads back as a nonempty string. -/
theorem truthyS_jsGet (o : Option String) (h : truthyS o = true) : jsGet o ≠ "" := by
  cases o with
  | none => simp [truthyS] at h
  | some s => simpa [truthyS, jsGet] using h

/-- The per-story evaluation preserves the batch invariant: every emitted
story's identifier is nonempty and registered in the seen set, and the
identifiers in the batch are pairwise distinct. -/
theorem evalStory_inv (P : WalkParams) (st : WalkState) (ic : InterceptState)
    (nCC : Nat) (lu : String) (storyPk : Option String) (inp : CycleInput)
    (hmem : ∀ s ∈ st.stories, s.ig_pk ≠ "" ∧ s.ig_pk ∈ st.seenPks)
    (hpw : st.stories.Pairwise (fun a b => a.ig_pk ≠ b.ig_pk)) :
    (∀ s ∈ (evalStory P st ic nCC lu storyPk inp).stories,
      s.ig_pk ≠ "" ∧ s.ig_pk ∈ (evalStory P st ic nCC lu storyPk inp).seenPks) ∧
    (evalStory P st ic nCC lu storyPk inp).stories.Pairwise
      (fun a b => a.ig_pk ≠ b.ig_pk) := by
  simp only [evalStory]
  split
  · next hcond =>
    split
    · next hseen => exact ⟨hmem, hpw⟩
    · next hnotseen =>
      simp only [Bool.and_eq_true] at hcond
      have hpk : jsGet storyPk ≠ "" := truthyS_jsGet _ hcond.1.2
      constructor
      · intro s hs
        rcases List.mem_append.mp hs with h | h
        · exact ⟨(hmem s h).1, List.mem_append_left _ (hmem s h).2⟩
        · rcases List.mem_singleton.mp h with rfl
          exact ⟨hpk, List.mem_append_right _ (List.mem_singleton_self _)⟩
      · apply List.pairwise_append.mpr
        refine ⟨hpw, List.pairwise_singleton _ _, ?_⟩
        intro a ha b hb
        rcases List.mem_singleton.mp hb with rfl
        intro hcontra
        apply hnotseen
        have hmem2 := (hmem a ha).2
        rw [hcontra] at hmem2
        exact hmem2
  · split
    · next hcond2 =>
      split
      · next hguard =>
        simp only [Bool.and_eq_true] at hcond2
        simp only [Bool.and_eq_true, Bool.not_eq_true', decide_eq_false_iff_not] at hguard
        have hpk : jsGet storyPk ≠ "" := truthyS_jsGet _ hcond2.1
        have hnotseen := hguard.2
        constructor
        · intro s hs
          rcases List.mem_append.mp hs with h | h
          · exact ⟨(hmem s h).1, List.mem_append_left _ (hmem s h).2⟩
          · rcases List.mem_singleton.mp h with rfl
            exact ⟨hpk, List.mem_append_right _ (List.mem_singleton_self _)⟩
        · apply List.pairwise_append.mpr
          refine ⟨hpw, List.pairwise_singleton _ _, ?_⟩
          intro a ha b hb
          rcases List.mem_singleton.mp hb with rfl
          intro hcontra
          apply hnotseen
          have hmem2 := (hmem a ha).2
          rw [hcontra] at hmem2
          exact hmem2
      · exact ⟨hmem, hpw⟩
    · exact ⟨hmem, hpw⟩

/-- One walk cycle preserves the batch invariant. -/
theorem walkStep_inv (P : WalkParams) (st : WalkState) (inp : CycleInput)
    (hmem : ∀ s ∈ st.stories, s.ig_pk ≠ "" ∧ s.ig_pk ∈ st.seenPks)
    (hpw : st.stories.Pairwise (fun a b => a.ig_pk ≠ b.ig_pk)) :
    (∀ s ∈ (walkStep P st inp).stories,
      s.ig_pk ≠ "" ∧ s.ig_pk ∈ (walkStep P st inp).seenPks) ∧
    (walkStep P st inp).stories.Pairwise (fun a b => a.ig_pk ≠ b.ig_pk) := by
  simp only [walkStep]
  split
  · exact ⟨hmem, hpw⟩
  · exact evalStory_inv P st _ _ _ _ inp hmem hpw

/-- The whole loop preserves the batch invariant. -/
theorem walkRun_inv (P : WalkParams) :
    ∀ (inputs : List CycleInput) (st : WalkState),
      (∀ s ∈ st.stories, s.ig_pk ≠ "" ∧ s.ig_pk ∈ st.seenPks) →
      st.stories.Pairwise (fun a b => a.ig_pk ≠ b.ig_pk) →
      (∀ s ∈ (walkRun P st inputs).stories,
        s.ig_pk ≠ "" ∧ s.ig_pk ∈ (walkRun P st inputs).seenPks) ∧
      (walkRun P st inputs).stories.Pairwise (fun a b => a.ig_pk ≠ b.ig_pk) := by
  intro inputs
  induction inputs with
  | nil => intro st hmem hpw; exact ⟨hmem, hpw⟩
  | cons i rest ih =>
    intro st hmem hpw
    rw [walkRun_cons]
    by_cases hg : st.noContentCount < 3
    · rw [if_pos hg]
      have h := walkStep_inv P st i hmem hpw
      exact ih (walkStep P st i) h.1 h.2
    · rw [if_neg hg]
      exact ⟨hmem, hpw⟩

/-- C9: every story in a batch returned by a walk carries a nonempty platform
identifier, and no two stories of the batch share an identifier — emission in
both branches is guarded by a truthy `storyPk` and by non-membership in the
in-run seen set, which the identifier joins at emission time. -/
theorem claim_C9_batch_identifiers : ∀ (P : WalkParams) (seen : List String)
    (u0 : String) (inputs : List CycleInput),
    (∀ s ∈ extractStoryDataFromPage P seen u0 inputs, s.ig_pk ≠ "") ∧
    (extractStoryDataFromPage P seen u0 inputs).Pairwise
      (fun a b => a.ig_pk ≠ b.ig_pk) := by
  intro P seen u0 inputs
  unfold extractStoryDataFromPage
  by_cases hview : containsSubstr u0 "/stories/" = true
  · rw [if_pos hview]
    have h := walkRun_inv P inputs (initWalkState seen)
      (by intro s hs; simp [initWalkState] at hs) (by simp [initWalkState])
    exact ⟨fun s hs => (h.1 s hs).1, h.2⟩
  · rw [if_neg (by simp [hview])]
    exact ⟨fun s hs => absurd hs (List.not_mem_nil s), List.Pairwise.nil⟩

/-- Witness for C9: on a concrete two-cycle run emitting image story 222, the
batch identifiers are pairwise distinct and the emitted story's identifier is
nonempty. -/
theorem claim_C9_witness :
    (extractStoryDataFromPage cexParams [] "https://www.instagram.com/stories/tt/"
      [cexInpNoPk, cexInpImg222]).Pairwise (fun a b => a.ig_pk ≠ b.ig_pk) ∧
    ({ ig_pk := "222", username := "tt", caption := none, media_type := 1,
       is_video := false, media_url := cexVidUrl, original_video_url := none,
       original_audio_url := none, local_video_id := none,
       thumbnail_url := cexVidUrl,
       permalink := "https://www.instagram.com/stories/tt/222/",
       story_link := none } : Story).ig_pk ≠ "" := by
  have h := claim_C9_batch_identifiers cexParams []
    "https://www.instagram.com/stories/tt/" [cexInpNoPk, cexInpImg222]
  exact ⟨h.2, h.1 _ (by decide)⟩
